import Mathlib

/-!
Verification of the mystore terminal file manager (src/main.rs), as a
shallow embedding in Lean.

Modelling conventions:
* Rust `u8` bytes are `Nat` values below 256; arithmetic carries an
  explicit `% 256` wherever the source converts back to `u8`.
* Rust `String` / `&str` values that feed the cipher are modelled as the
  list of their UTF-8 bytes (`List Nat`); `utf8Valid` plays the role of
  Rust's UTF-8 well-formedness check (`String::from_utf8`).
* Filesystem paths are lists of path components; a component name is an
  opaque identifier (`Nat`) carrying the linear order that Rust's
  `OsStr` byte order induces.
* `&mut self` methods become functions from the state to the new state;
  fallible methods return `Except IoErr`; methods that mutate state
  before a possible failure return the partially mutated state next to
  the `Except` result, matching what a `&mut` borrow leaves behind.
-/

namespace Mystore

/-- Continuation byte of a UTF-8 sequence: `0x80 ≤ b ≤ 0xBF`. -/
def isCont (b : Nat) : Bool := 128 ≤ b && b ≤ 191

/-- Rust `String::from_utf8` validity on a byte sequence (RFC 3629:
rejects overlong forms, surrogates and code points above U+10FFFF). -/
def utf8Valid : List Nat → Bool
  | [] => true
  | b :: rest =>
    if b ≤ 127 then utf8Valid rest
    else
      match rest with
      | [] => false
      | c :: rest2 =>
        if (194 ≤ b && b ≤ 223) && isCont c then utf8Valid rest2
        else
          match rest2 with
          | [] => false
          | d :: rest3 =>
            if ((b == 224 && (160 ≤ c && c ≤ 191))
                || (((225 ≤ b && b ≤ 236) || (238 ≤ b && b ≤ 239)) && isCont c)
                || (b == 237 && (128 ≤ c && c ≤ 159))) && isCont d then
              utf8Valid rest3
            else
              match rest3 with
              | [] => false
              | e :: rest4 =>
                if ((b == 240 && (144 ≤ c && c ≤ 191))
                    || ((241 ≤ b && b ≤ 243) && isCont c)
                    || (b == 244 && (128 ≤ c && c ≤ 143))) && isCont d && isCont e then
                  utf8Valid rest4
                else false

/-- `Editor::crypt_add`: add the `count`-th key byte, reduced mod 256.
The source indexes `crypt[count]` directly (a panic when out of range);
the claims always run it with `count < 5 ≤ key.length`, where `getD`
coincides with the source's indexing. -/
def Editor.crypt_add (c : Nat) (count : Nat) (key : List Nat) : Nat :=
  (c + key.getD count 0) % 256

/-- `Viewer::crypt_rm`: subtract the `count`-th key byte, adding 256
first when the subtrahend exceeds the byte value. -/
def Viewer.crypt_rm (c : Nat) (count : Nat) (key : List Nat) : Nat :=
  if c < key.getD count 0 then c + 256 - key.getD count 0
  else c - key.getD count 0

/-- The loop of `Editor::encrypt_string`: `count` starts at 0 and steps
`(count + 1) % 5`; each output byte is pushed `as u8`. -/
def Editor.encryptLoop (key : List Nat) : List Nat → Nat → List Nat
  | [], _ => []
  | b :: rest, count =>
    Editor.crypt_add b count key % 256 :: Editor.encryptLoop key rest ((count + 1) % 5)

/-- `Editor::encrypt_string` on the UTF-8 bytes of the input string. -/
def Editor.encrypt_string (s : List Nat) (key : List Nat) : List Nat :=
  Editor.encryptLoop key s 0

/-- The loop of `Viewer::decrypt_binary`, before the `String::from_utf8`
validation; each output byte is pushed `as u8`. -/
def Viewer.decryptLoop (key : List Nat) : List Nat → Nat → List Nat
  | [], _ => []
  | b :: rest, count =>
    Viewer.crypt_rm b count key % 256 :: Viewer.decryptLoop key rest ((count + 1) % 5)

/-- `Viewer::decrypt_binary`: run the byte loop, then accept the result
only when it is valid UTF-8 (`String::from_utf8`). -/
def Viewer.decrypt_binary (bin : List Nat) (key : List Nat) : Except Unit (List Nat) :=
  let text := Viewer.decryptLoop key bin 0
  if utf8Valid text then Except.ok text else Except.error ()

/-! ## Filesystem and entity model -/

/-- A filesystem path: the list of its components. A component name is
an opaque identifier carrying the linear order of Rust's `OsStr`. -/
abbrev Path := List Nat

/-- `Action`: the two virtual navigation entries. -/
inductive Action
  | Back
  | Root
deriving DecidableEq

/-- `ManagerEntity`: a directory-listing item. -/
inductive ManagerEntity
  | TextFile (path : Path)
  | Folder (path : Path)
  | Action (act : Action)
deriving DecidableEq

/-- `Respond`: what `FileManager::action` hands back to the controller. -/
inductive Respond
  | Text (s : List Nat)
  | Bin (b : List Nat)
  | None
deriving DecidableEq

/-- `io::ErrorKind`, restricted to the kinds the program produces. -/
inductive IoErrKind
  | invalidInput
  | invalidData
  | notFound
  | other
deriving DecidableEq

/-- `io::Error`: a kind plus its message. -/
structure IoErr where
  kind : IoErrKind
  msg : String
deriving DecidableEq

/-- The filesystem visible to the session: existing directories,
existing files with their contents, and per-path metadata.
`meta p = none` models a failing `metadata()` call; `meta p = some none`
models metadata whose `modified()` query fails; `meta p = some (some t)`
is a last-modified time. -/
structure FS where
  dirs : List Path
  files : List (Path × List Nat)
  meta : Path → Option (Option Nat)

/-- `Path::is_dir`. -/
def FS.isDir (fs : FS) (p : Path) : Bool := fs.dirs.contains p

/-- `Path::is_file`. -/
def FS.isFile (fs : FS) (p : Path) : Bool := fs.files.any (fun f => f.1 == p)

/-- The entries `read_dir` yields for `dir`: every stored path directly
below it (the on-disk order is unspecified; this model fixes one). -/
def FS.children (fs : FS) (dir : Path) : List Path :=
  (fs.dirs ++ fs.files.map Prod.fst).filter (fun p => !p.isEmpty && p.dropLast == dir)

/-- `FileManager::open_dir`: list a directory or fail. -/
def FS.openDir (fs : FS) (dir : Path) : Except IoErr (List Path) :=
  if fs.isDir dir then Except.ok (fs.children dir)
  else Except.error ⟨IoErrKind.notFound, "No such directory"⟩

/-- `std::fs::read_to_string`: the contents when the file exists and is
valid UTF-8. -/
def FS.read_to_string (fs : FS) (path : Path) : Except IoErr (List Nat) :=
  match fs.files.find? (fun f => f.1 == path) with
  | some f =>
    if utf8Valid f.2 then Except.ok f.2
    else Except.error ⟨IoErrKind.invalidData, "stream did not contain valid UTF-8"⟩
  | none => Except.error ⟨IoErrKind.notFound, "No such file"⟩

/-- `std::fs::read`: the raw bytes when the file exists. -/
def FS.readRaw (fs : FS) (path : Path) : Except IoErr (List Nat) :=
  match fs.files.find? (fun f => f.1 == path) with
  | some f => Except.ok f.2
  | none => Except.error ⟨IoErrKind.notFound, "No such file"⟩

/-- `File::create` followed by `write_all`: requires the parent
directory to exist and the path not to name a directory; replaces any
previous contents and stamps the modification time `nowT`. -/
def FS.writeFile (fs : FS) (nowT : Nat) (path : Path) (data : List Nat) : Except IoErr FS :=
  if fs.isDir path then Except.error ⟨IoErrKind.other, "Is a directory"⟩
  else if fs.isDir path.dropLast then
    Except.ok
      { fs with
        files := (path, data) :: fs.files.filter (fun f => !(f.1 == path)),
        meta := fun p => if p == path then some (some nowT) else fs.meta p }
  else Except.error ⟨IoErrKind.notFound, "No such directory"⟩

/-- `std::fs::remove_file`. -/
def FS.removeFile (fs : FS) (path : Path) : Except IoErr FS :=
  if fs.isFile path then
    Except.ok
      { fs with
        files := fs.files.filter (fun f => !(f.1 == path)),
        meta := fun p => if p == path then none else fs.meta p }
  else Except.error ⟨IoErrKind.notFound, "No such file"⟩

/-- `Path::parent`: strip the last component; `none` at the top. -/
def pathParent (p : Path) : Option Path :=
  if p.isEmpty then none else some p.dropLast

/-! ## Listing construction and its sort policy -/

/-- Non-strict lexicographic order on paths, the order `PathBuf`'s `Ord`
gives (component-wise, shorter prefixes first). -/
def pathLe : Path → Path → Bool
  | [], _ => true
  | _ :: _, [] => false
  | a :: as, b :: bs => if a < b then true else if a = b then pathLe as bs else false

/-- `Option` order with `None` least, as Rust's `Ord` on `Option`. -/
def optPathLe : Option Path → Option Path → Bool
  | none, _ => true
  | some _, none => false
  | some p, some q => pathLe p q

/-- `Option<SystemTime>` order with `None` least. -/
def optTimeLe : Option Nat → Option Nat → Bool
  | none, _ => true
  | some _, none => false
  | some a, some b => a ≤ b

/-- The folder sort key of `create_entities` (the full path). -/
def folderKey : ManagerEntity → Option Path
  | ManagerEntity.TextFile path => some path
  | ManagerEntity.Folder path => some path
  | ManagerEntity.Action _ => none

/-- Comparator induced by the folder sort key. -/
def folderLe (e1 e2 : ManagerEntity) : Bool :=
  optPathLe (folderKey e1) (folderKey e2)

/-- The file sort key of `create_entities`: `metadata()` failure gives
`none`, a failing `modified()` is replaced by `UNIX_EPOCH` (0). -/
def fileKey (fs : FS) : ManagerEntity → Option Nat
  | ManagerEntity.TextFile path => (fs.meta path).map (fun mo => mo.getD 0)
  | ManagerEntity.Folder path => (fs.meta path).map (fun mo => mo.getD 0)
  | ManagerEntity.Action _ => none

/-- Comparator induced by `Reverse` of the file sort key: ascending in
`Reverse k` is descending in `k`. -/
def fileLe (fs : FS) (e1 e2 : ManagerEntity) : Bool :=
  optTimeLe (fileKey fs e2) (fileKey fs e1)

/-- `FileManager::create_entities`: folders sorted by path, then files
sorted by reversed modification key, then `Back`/`Root` when not at the
root. -/
def FileManager.create_entities (fs : FS) (files : List Path) (isRoot : Bool) :
    List ManagerEntity :=
  let folderEntities :=
    (files.filterMap fun p =>
      if fs.isDir p then some (ManagerEntity.Folder p) else none).mergeSort folderLe
  let fileEntities :=
    (files.filterMap fun p =>
      if fs.isFile p then some (ManagerEntity.TextFile p) else none).mergeSort (fileLe fs)
  let entities := folderEntities ++ fileEntities
  if !isRoot then
    entities ++ [ManagerEntity.Action Action.Back, ManagerEntity.Action Action.Root]
  else entities

/-! ## FileManager state and operations -/

/-- The `FileManager` struct. -/
structure FileManager where
  root : Path
  current : Path
  entities : List ManagerEntity
  selected : Option Nat
  created_entities : List ManagerEntity
deriving DecidableEq

/-- `FileManager::goto_dir`. -/
def FileManager.goto_dir (fs : FS) (m : FileManager) (dir : Path) :
    Except IoErr FileManager :=
  let isRoot := dir == m.root
  match fs.openDir dir with
  | Except.error e => Except.error e
  | Except.ok files =>
    Except.ok
      { m with
        entities := FileManager.create_entities fs files isRoot,
        selected := none,
        current := dir }

/-- `FileManager::new`. -/
def FileManager.new (fs : FS) (root : Path) : Except IoErr FileManager :=
  match fs.openDir root with
  | Except.error e => Except.error e
  | Except.ok files =>
    Except.ok
      { current := root
        root := root
        entities := FileManager.create_entities fs files true
        selected := none
        created_entities := [] }

/-- `FileManager::get_selected_entity_name` (`file_name` of the selected
path). -/
def FileManager.get_selected_entity_name (m : FileManager) : Option Nat :=
  match m.selected with
  | none => none
  | some id =>
    match m.entities.getD id (ManagerEntity.Action Action.Back) with
    | ManagerEntity.TextFile path => path.getLast?
    | ManagerEntity.Folder path => path.getLast?
    | ManagerEntity.Action _ => none

/-- `FileManager::next`. -/
def FileManager.next (m : FileManager) : FileManager :=
  if m.entities.isEmpty then m
  else
    { m with
      selected :=
        match m.selected with
        | some value => some ((value + 1) % m.entities.length)
        | none => some 0 }

/-- `FileManager::previous`. -/
def FileManager.previous (m : FileManager) : FileManager :=
  if m.entities.isEmpty then m
  else
    { m with
      selected :=
        match m.selected with
        | some 0 => some (m.entities.length - 1)
        | some value => some (value - 1)
        | none => some (m.entities.length - 1) }

/-- `FileManager::select`: the returned `Bool` is the source's return
value. -/
def FileManager.select (m : FileManager) (id : Nat) : Bool × FileManager :=
  if id < m.entities.length then (true, { m with selected := some id })
  else (false, m)

/-- `FileManager::refresh`: re-list the current directory and re-apply
the saved selection when still in range. -/
def FileManager.refresh (fs : FS) (m : FileManager) : Except IoErr FileManager :=
  let selected := m.selected
  match FileManager.goto_dir fs m m.current with
  | Except.error e => Except.error e
  | Except.ok m1 =>
    Except.ok
      (match selected with
       | some id => (m1.select id).2
       | none => m1)

/-- `FileManager::create_file`: `now` is the timestamp-derived default
file name (`Utc::now().to_rfc3339()`), `nowT` the modification time the
write stamps. Mutations made before a failing step persist. -/
def FileManager.create_file (fs : FS) (now : Nat) (nowT : Nat) (m : FileManager)
    (data : List Nat) (file_name : Option Nat) :
    Except IoErr Unit × FS × FileManager :=
  let name := file_name.getD now
  let file_path := m.current ++ [name]
  match fs.writeFile nowT file_path data with
  | Except.error e => (Except.error e, fs, m)
  | Except.ok fs1 =>
    let m1 :=
      { m with created_entities := m.created_entities ++ [ManagerEntity.TextFile file_path] }
    match FileManager.refresh fs1 m1 with
    | Except.error e => (Except.error e, fs1, m1)
    | Except.ok m2 => (Except.ok (), fs1, m2)

/-- `FileManager::delete_selected`. The source indexes `entities[id]`
directly; `getD` coincides with it whenever the selection is in range. -/
def FileManager.delete_selected (fs : FS) (m : FileManager) :
    Except IoErr Unit × FS × FileManager :=
  match m.selected with
  | none =>
    match FileManager.refresh fs m with
    | Except.error e => (Except.error e, fs, m)
    | Except.ok m1 => (Except.ok (), fs, m1)
  | some id =>
    match m.entities.getD id (ManagerEntity.Action Action.Back) with
    | ManagerEntity.TextFile path =>
      match m.created_entities.findIdx? (fun elem => elem == ManagerEntity.TextFile path) with
      | none =>
        (Except.error
          ⟨IoErrKind.invalidInput, "Cannot delete the entity not created in the current session"⟩,
         fs, m)
      | some item =>
        match fs.removeFile path with
        | Except.error e => (Except.error e, fs, m)
        | Except.ok fs1 =>
          let m1 := { m with created_entities := m.created_entities.eraseIdx item }
          match FileManager.refresh fs1 m1 with
          | Except.error e => (Except.error e, fs1, m1)
          | Except.ok m2 => (Except.ok (), fs1, m2)
    | ManagerEntity.Folder _ =>
      (Except.error ⟨IoErrKind.invalidInput, "Cannot delete the folder entity"⟩, fs, m)
    | ManagerEntity.Action _ =>
      (Except.error ⟨IoErrKind.invalidInput, "Cannot delete the action entity"⟩, fs, m)

/-- `FileManager::action`. -/
def FileManager.action (fs : FS) (m : FileManager) :
    Except IoErr Respond × FileManager :=
  match m.selected with
  | none => (Except.ok Respond.None, m)
  | some id =>
    match m.entities.getD id (ManagerEntity.Action Action.Back) with
    | ManagerEntity.TextFile path =>
      match fs.read_to_string path with
      | Except.ok text => (Except.ok (Respond.Text text), m)
      | Except.error _ =>
        match fs.readRaw path with
        | Except.ok bin => (Except.ok (Respond.Bin bin), m)
        | Except.error e => (Except.error e, m)
    | ManagerEntity.Folder path =>
      match FileManager.goto_dir fs m path with
      | Except.ok m1 => (Except.ok Respond.None, m1)
      | Except.error e => (Except.error e, m)
    | ManagerEntity.Action act =>
      match act with
      | Action.Back =>
        match pathParent m.current with
        | some path =>
          match FileManager.goto_dir fs m path with
          | Except.ok m1 => (Except.ok Respond.None, m1)
          | Except.error e => (Except.error e, m)
        | none => (Except.ok Respond.None, m)
      | Action.Root =>
        match FileManager.goto_dir fs m m.root with
        | Except.ok m1 => (Except.ok Respond.None, m1)
        | Except.error e => (Except.error e, m)

/-! ## Viewer -/

/-- `ViewerEntity`: the three content classifications. -/
inductive ViewerEntity
  | Text (s : List Nat)
  | DecryptedText (s : List Nat)
  | Binary (b : List Nat)
deriving DecidableEq

/-- The `Viewer` struct; `scroll` is a `u16`, kept below 2^16 by its
operations. -/
structure Viewer where
  name : Option Nat
  entity : ViewerEntity
  scroll : Nat
  key : List Nat
deriving DecidableEq

/-- `Viewer::new`: rejects keys shorter than 5 bytes. -/
def Viewer.new (key : List Nat) : Except IoErr Viewer :=
  if key.length < 5 then Except.error ⟨IoErrKind.invalidInput, "Invalid key"⟩
  else
    Except.ok
      { name := none
        entity := ViewerEntity.Text []
        scroll := 0
        key := key }

/-- `Viewer::set_entity`: store the name, reset scroll, and classify;
binary content goes through the decrypt-then-validate path. -/
def Viewer.set_entity (v : Viewer) (entity : ViewerEntity) (name : Option Nat) : Viewer :=
  let v1 := { v with name := name, scroll := 0 }
  match entity with
  | ViewerEntity.Text _ => { v1 with entity := entity }
  | ViewerEntity.DecryptedText _ => { v1 with entity := entity }
  | ViewerEntity.Binary bin =>
    match Viewer.decrypt_binary bin v.key with
    | Except.ok text => { v1 with entity := ViewerEntity.DecryptedText text }
    | Except.error _ => { v1 with entity := ViewerEntity.Binary bin }

/-- `Viewer::scroll_up`: `checked_sub`, keeping the old offset when the
subtraction would underflow. -/
def Viewer.scroll_up (v : Viewer) (value : Nat) : Viewer :=
  { v with scroll := if value ≤ v.scroll then v.scroll - value else v.scroll }

/-- `Viewer::scroll_down`: `checked_add` on `u16`, keeping the old
offset when the addition would overflow past 65535. -/
def Viewer.scroll_down (v : Viewer) (value : Nat) : Viewer :=
  { v with scroll := if v.scroll + value ≤ 65535 then v.scroll + value else v.scroll }

/-- `Viewer::clear`. -/
def Viewer.clear (v : Viewer) : Viewer :=
  { v with name := none, entity := ViewerEntity.Text [], scroll := 0 }

/-! ## Editor -/

/-- The `Editor` struct: an optional textarea (a list of lines, each a
byte list) plus the key. -/
structure Editor where
  textarea : Option (List (List Nat))
  key : List Nat
deriving DecidableEq

/-- `Editor::new`: no validation of the key, construction is total. -/
def Editor.new (key : List Nat) : Editor :=
  { textarea := none, key := key }

/-- `Editor::init`: `TextArea::default()` holds a single empty line. -/
def Editor.init (e : Editor) : Editor :=
  { e with textarea := some [[]] }

/-- `Editor::finish`: take the buffer (leaving `none`), join the lines
with a newline; empty output when no buffer exists. The source wraps the
value in `Ok`; it can never fail. -/
def Editor.finish (e : Editor) : List Nat × Editor :=
  match e.textarea with
  | some textarea => (List.intercalate [10] textarea, { e with textarea := none })
  | none => ([], e)

/-- `Editor::finish_encrypt`: same extraction, then the cipher's encode
step. -/
def Editor.finish_encrypt (e : Editor) : List Nat × Editor :=
  match e.textarea with
  | some textarea =>
    (Editor.encrypt_string (List.intercalate [10] textarea) e.key, { e with textarea := none })
  | none => ([], e)

/-! ## Mode state machine and session controller -/

/-- The session modes. -/
inductive Mode
  | Manager
  | Viewer
  | Editor
  | Exit
deriving DecidableEq

/-- The key codes the `update` function distinguishes; every other
`crossterm` code collapses into `other`. -/
inductive KeyCode
  | esc
  | up
  | down
  | enter
  | char (c : Char)
  | other
deriving DecidableEq

/-- A key event: its code and whether the modifier set equals
`KeyModifiers::CONTROL` (what the `Editor` arm patterns match on). -/
structure KeyEvent where
  code : KeyCode
  ctrl : Bool
deriving DecidableEq

/-- The `update` function: one dispatch of a key event against the
current mode. `inputFn` models `tui_textarea::TextArea::input`, an
external crate left abstract; `now` is the timestamp-derived default
file name and `nowT` the modification time of a write. The mutable
borrows of the source become the returned state tuple, which also
carries the mutations already made when an error is returned. -/
def update (inputFn : KeyEvent → List (List Nat) → List (List Nat))
    (now nowT : Nat) (key : KeyEvent) (mode : Mode)
    (fs : FS) (manager : FileManager) (viewer : Viewer) (editor : Editor) :
    Except IoErr Mode × FS × FileManager × Viewer × Editor :=
  match mode with
  | Mode.Manager =>
    match key.code with
    | KeyCode.esc => (Except.ok Mode.Exit, fs, manager, viewer, editor)
    | KeyCode.up => (Except.ok Mode.Manager, fs, manager.previous, viewer, editor)
    | KeyCode.down => (Except.ok Mode.Manager, fs, manager.next, viewer, editor)
    | KeyCode.enter =>
      match FileManager.action fs manager with
      | (Except.ok (Respond.Text text), m1) =>
        (Except.ok Mode.Viewer, fs, m1,
         viewer.set_entity (ViewerEntity.Text text) m1.get_selected_entity_name, editor)
      | (Except.ok (Respond.Bin bin), m1) =>
        (Except.ok Mode.Viewer, fs, m1,
         viewer.set_entity (ViewerEntity.Binary bin) m1.get_selected_entity_name, editor)
      | (Except.ok Respond.None, m1) => (Except.ok Mode.Manager, fs, m1, viewer, editor)
      | (Except.error e, m1) => (Except.error e, fs, m1, viewer, editor)
    | KeyCode.char c =>
      if c == 'e' || c == 'E' then (Except.ok Mode.Editor, fs, manager, viewer, editor)
      else if c == 'n' || c == 'N' then
        (Except.ok Mode.Editor, fs, manager, viewer, editor.init)
      else if c == 'd' || c == 'D' then
        match FileManager.delete_selected fs manager with
        | (Except.ok _, fs1, m1) => (Except.ok Mode.Manager, fs1, m1, viewer, editor)
        | (Except.error e, fs1, m1) => (Except.error e, fs1, m1, viewer, editor)
      else (Except.ok Mode.Manager, fs, manager, viewer, editor)
    | KeyCode.other => (Except.ok Mode.Manager, fs, manager, viewer, editor)
  | Mode.Viewer =>
    match key.code with
    | KeyCode.up => (Except.ok Mode.Viewer, fs, manager, viewer.scroll_up 1, editor)
    | KeyCode.down => (Except.ok Mode.Viewer, fs, manager, viewer.scroll_down 1, editor)
    | _ => (Except.ok Mode.Manager, fs, manager, viewer.clear, editor)
  | Mode.Editor =>
    if key.code == KeyCode.esc then (Except.ok Mode.Manager, fs, manager, viewer, editor)
    else if (key.code == KeyCode.char 's' || key.code == KeyCode.char 'S') && key.ctrl then
      let fin := editor.finish
      match FileManager.create_file fs now nowT manager fin.1 none with
      | (Except.ok _, fs1, m1) => (Except.ok Mode.Manager, fs1, m1, viewer, fin.2)
      | (Except.error e, fs1, m1) => (Except.error e, fs1, m1, viewer, fin.2)
    else if (key.code == KeyCode.char 'e' || key.code == KeyCode.char 'E') && key.ctrl then
      let fin := editor.finish_encrypt
      match FileManager.create_file fs now nowT manager fin.1 none with
      | (Except.ok _, fs1, m1) => (Except.ok Mode.Manager, fs1, m1, viewer, fin.2)
      | (Except.error e, fs1, m1) => (Except.error e, fs1, m1, viewer, fin.2)
    else
      (Except.ok Mode.Editor, fs, manager, viewer,
       { editor with textarea := editor.textarea.map (inputFn key) })
  | Mode.Exit => (Except.ok Mode.Exit, fs, manager, viewer, editor)

/-- The state the `run_session` loop threads between key events;
`status = some e` models `status = Err(e)`. -/
structure SessionState where
  mode : Mode
  status : Option IoErr
  fs : FS
  manager : FileManager
  viewer : Viewer
  editor : Editor

/-- One turn of the `run_session` input handling: on `Ok(new_mode)` the
status is cleared and the mode replaced; on `Err` the error becomes the
status and the mode is left as it was. -/
def sessionStep (inputFn : KeyEvent → List (List Nat) → List (List Nat))
    (now nowT : Nat) (key : KeyEvent) (s : SessionState) : SessionState :=
  match update inputFn now nowT key s.mode s.fs s.manager s.viewer s.editor with
  | (Except.ok newMode, fs1, m1, v1, e1) =>
    { mode := newMode, status := none, fs := fs1, manager := m1, viewer := v1, editor := e1 }
  | (Except.error err, fs1, m1, v1, e1) =>
    { mode := s.mode, status := some err, fs := fs1, manager := m1, viewer := v1, editor := e1 }

/-- The listing invariant of the spec: `Action` entries are present
exactly when the current directory is not the configured root, and when
present they are the final two entries, `Back` then `Root`. -/
def listingInv (m : FileManager) : Prop :=
  if m.current = m.root then
    ∀ a, ManagerEntity.Action a ∉ m.entities
  else
    ∃ front,
      m.entities = front ++ [ManagerEntity.Action Action.Back, ManagerEntity.Action Action.Root]
      ∧ ∀ a, ManagerEntity.Action a ∉ front

/-! ## Helper lemmas -/

theorem crypt_rm_add (b k : Nat) (hb : b < 256) (hk : k < 256) :
    (if (b + k) % 256 < k then (b + k) % 256 + 256 - k else (b + k) % 256 - k) % 256 = b := by
  rcases Nat.lt_or_ge ((b + k) % 256) k with h | h
  · simp only [if_pos h]
    omega
  · simp only [if_neg (Nat.not_lt.mpr h)]
    omega

theorem decryptLoop_encryptLoop (key : List Nat) (hk : 5 ≤ key.length)
    (hkb : ∀ b ∈ key, b < 256) :
    ∀ (s : List Nat) (count : Nat), count < 5 → (∀ b ∈ s, b < 256) →
      Viewer.decryptLoop key (Editor.encryptLoop key s count) count = s := by
  intro s
  induction s with
  | nil => intro count _ _; rfl
  | cons b rest ih =>
    intro count hcount hs
    have hkey : key.getD count 0 < 256 := by
      have hmem : key.getD count 0 ∈ key := by
        have hlt : count < key.length := lt_of_lt_of_le hcount hk
        rw [List.getD_eq_getElem _ _ hlt]
        exact List.getElem_mem hlt
      exact hkb _ hmem
    have hb : b < 256 := hs b (List.mem_cons_self b rest)
    simp only [Editor.encryptLoop, Viewer.decryptLoop]
    congr 1
    · have := crypt_rm_add b (key.getD count 0) hb hkey
      simp only [Editor.crypt_add, Viewer.crypt_rm]
      have harg : (b + key.getD count 0) % 256 % 256 = (b + key.getD count 0) % 256 :=
        Nat.mod_mod_of_dvd _ dvd_rfl
      rw [harg]
      exact this
    · exact ih ((count + 1) % 5) (Nat.mod_lt _ (by omega))
        (fun x hx => hs x (List.mem_cons_of_mem b hx))

/-! ## Claim C1: cipher round trip -/

/-- C1. Cipher round-trip: for every key of at least 5 bytes and every
string `s` (given by its UTF-8 bytes), `Viewer::decrypt_binary` applied
to `Editor::encrypt_string(s, key)` returns `Ok(s)`. -/
theorem C1_cipher_round_trip (s key : List Nat)
    (hk : 5 ≤ key.length) (hkb : ∀ b ∈ key, b < 256)
    (hs : ∀ b ∈ s, b < 256) (hutf : utf8Valid s = true) :
    Viewer.decrypt_binary (Editor.encrypt_string s key) key = Except.ok s := by
  unfold Viewer.decrypt_binary Editor.encrypt_string
  rw [decryptLoop_encryptLoop key hk hkb s 0 (by omega) hs]
  simp [hutf]

/-- C1 witness: the round trip at the key "abcde" and the text "hi". -/
theorem C1_cipher_round_trip_witness :
    5 ≤ ([97, 98, 99, 100, 101] : List Nat).length
    ∧ Viewer.decrypt_binary
        (Editor.encrypt_string [104, 105] [97, 98, 99, 100, 101])
        [97, 98, 99, 100, 101] = Except.ok [104, 105] :=
  ⟨by decide,
   C1_cipher_round_trip [104, 105] [97, 98, 99, 100, 101]
     (by decide) (by decide) (by decide) (by decide)⟩

/-! ## Claim C3: key constraint -/

/-- C3 counterexample: the claim says `Editor::new` fails with an
`InvalidKey` error on a key shorter than 5 bytes, but `Editor::new`
performs no validation and cannot fail: with the 1-byte key `[97]` it
returns a fully constructed `Editor`. -/
theorem C3_counterexample :
    Editor.new [97] = { textarea := none, key := [97] }
    ∧ ([97] : List Nat).length < 5 :=
  ⟨rfl, by decide⟩

/-- C3 amended: `Viewer::new` fails with the `InvalidKey` error exactly
on keys shorter than 5 bytes and succeeds on the rest, while
`Editor::new` performs no key validation and always succeeds (the
session is guarded only because `Viewer::new` runs first). -/
theorem C3_key_constraint (key : List Nat) :
    (key.length < 5 →
      Viewer.new key = Except.error ⟨IoErrKind.invalidInput, "Invalid key"⟩)
    ∧ (5 ≤ key.length →
      Viewer.new key =
        Except.ok { name := none, entity := ViewerEntity.Text [], scroll := 0, key := key })
    ∧ Editor.new key = { textarea := none, key := key } := by
  refine ⟨fun h => ?_, fun h => ?_, rfl⟩
  · simp [Viewer.new, h]
  · simp [Viewer.new, Nat.not_lt.mpr h]

/-- C3 witness: a 1-byte key is rejected by `Viewer::new` and the 5-byte
key "abcde" is accepted. -/
theorem C3_key_constraint_witness :
    Viewer.new [97] = Except.error ⟨IoErrKind.invalidInput, "Invalid key"⟩
    ∧ Viewer.new [97, 98, 99, 100, 101] =
        Except.ok
          { name := none, entity := ViewerEntity.Text [], scroll := 0,
            key := [97, 98, 99, 100, 101] } :=
  ⟨(C3_key_constraint [97]).1 (by decide),
   (C3_key_constraint [97, 98, 99, 100, 101]).2.1 (by decide)⟩

/-! ## Claim C7: viewer scrolling -/

/-- C7 counterexample: the claim says `scroll_up(n)` clamps to zero when
the decrement would go below zero, but the source's `checked_sub` keeps
the old offset instead: from offset 3, `scroll_up(5)` yields 3, not 0. -/
theorem C7_counterexample :
    (Viewer.scroll_up
      { name := none, entity := ViewerEntity.Text [], scroll := 3, key := [] } 5).scroll = 3
    ∧ (3 : Nat) ≠ 0 :=
  ⟨rfl, by decide⟩

/-- C7 amended: `scroll_up(n)` subtracts when `n` fits under the offset
and otherwise leaves the offset unchanged (so it never goes below zero
but does not clamp to zero), and `scroll_down(n)` adds when the result
fits in `u16` and otherwise leaves the offset unchanged (the `u16`
ceiling 65535 is an enforced upper bound). Consequently `scroll_up`
never increases the offset and `scroll_down` never decreases it nor
exceeds 65535 from a valid offset. -/
theorem C7_viewer_scrolling (v : Viewer) (n : Nat) :
    (v.scroll_up n).scroll = (if n ≤ v.scroll then v.scroll - n else v.scroll)
    ∧ (v.scroll_down n).scroll = (if v.scroll + n ≤ 65535 then v.scroll + n else v.scroll)
    ∧ (v.scroll_up n).scroll ≤ v.scroll
    ∧ v.scroll ≤ (v.scroll_down n).scroll
    ∧ (v.scroll ≤ 65535 → (v.scroll_down n).scroll ≤ 65535) := by
  refine ⟨rfl, rfl, ?_, ?_, ?_⟩
  · simp only [Viewer.scroll_up]
    split <;> omega
  · simp only [Viewer.scroll_down]
    split <;> omega
  · intro h
    simp only [Viewer.scroll_down]
    split <;> omega

/-- C7 witness: the bound-preservation conjunct discharged at a fresh
viewer and `n = 1`. -/
theorem C7_viewer_scrolling_witness :
    ((Viewer.scroll_down
      { name := none, entity := ViewerEntity.Text [], scroll := 0, key := [] } 1).scroll ≤ 65535) :=
  (C7_viewer_scrolling
    { name := none, entity := ViewerEntity.Text [], scroll := 0, key := [] } 1).2.2.2.2
    (by decide)

/-! ## Claim C6: cursor wraparound -/

theorem next_entities (m : FileManager) : m.next.entities = m.entities := by
  unfold FileManager.next
  split <;> rfl

theorem next_selected_of_none (m : FileManager) (h : m.selected = none)
    (hne : m.entities.length ≠ 0) : m.next.selected = some 0 := by
  match hE : m.entities with
  | [] => rw [hE] at hne; simp at hne
  | a :: l => simp [FileManager.next, hE, h]

theorem next_selected_of_some (m : FileManager) (i : Nat) (h : m.selected = some i)
    (hne : m.entities.length ≠ 0) :
    m.next.selected = some ((i + 1) % m.entities.length) := by
  match hE : m.entities with
  | [] => rw [hE] at hne; simp at hne
  | a :: l => simp [FileManager.next, hE, h]

theorem next_iterate_entities (m : FileManager) (k : Nat) :
    (FileManager.next^[k] m).entities = m.entities := by
  induction k with
  | zero => rfl
  | succ k ih => rw [Function.iterate_succ_apply', next_entities, ih]

theorem next_iterate_selected (n : Nat) (h0 : 0 < n) :
    ∀ (k i : Nat) (m : FileManager), m.entities.length = n → i < n → m.selected = some i →
      (FileManager.next^[k] m).selected = some ((i + k) % n) := by
  intro k
  induction k with
  | zero =>
    intro i m hn hilt hi
    rw [Function.iterate_zero_apply, hi]
    simp [Nat.mod_eq_of_lt hilt]
  | succ k ih =>
    intro i m hn hilt hi
    rw [Function.iterate_succ_apply']
    have hlen : (FileManager.next^[k] m).entities.length = n := by
      rw [next_iterate_entities, hn]
    have hsel := ih i m hn hilt hi
    rw [next_selected_of_some _ _ hsel (by rw [hlen]; omega), hlen, Nat.mod_add_mod]
    rfl

theorem previous_selected_of_zero (m : FileManager) (h : m.selected = some 0)
    (hne : m.entities.length ≠ 0) :
    m.previous.selected = some (m.entities.length - 1) := by
  match hE : m.entities with
  | [] => rw [hE] at hne; simp at hne
  | a :: l => simp [FileManager.previous, hE, h]

/-- C6 counterexample: on a listing of length 2, two `next()` calls from
an unset cursor land on index 1, not back on index 0 as the claim
states (the first call merely initializes the cursor to 0). -/
theorem C6_counterexample :
    (FileManager.next (FileManager.next
      { root := [], current := [],
        entities := [ManagerEntity.Action Action.Back, ManagerEntity.Action Action.Root],
        selected := none, created_entities := [] })).selected = some 1
    ∧ some 1 ≠ (some 0 : Option Nat) :=
  ⟨rfl, by decide⟩

/-- C6 amended: on a non-empty listing of length `n`, the first `next()`
from an unset cursor initializes the cursor to index 0 and `n` further
calls wrap it back to index 0 (so `n + 1` calls in total return to 0,
not `n` as claimed); `previous()` from index 0 yields `n - 1`. -/
theorem C6_cursor_wraparound (m : FileManager) (n : Nat)
    (hn : m.entities.length = n) (h0 : 0 < n) (hsel : m.selected = none) :
    (FileManager.next m).selected = some 0
    ∧ (FileManager.next^[n + 1] m).selected = some 0
    ∧ (∀ m' : FileManager, m'.entities.length = n → m'.selected = some 0 →
        m'.previous.selected = some (n - 1)) := by
  have h1 : (FileManager.next m).selected = some 0 :=
    next_selected_of_none m hsel (by omega)
  refine ⟨h1, ?_, ?_⟩
  · have h2 : (FileManager.next m).entities.length = n := by rw [next_entities, hn]
    have := next_iterate_selected n h0 n 0 (FileManager.next m) h2 h0 h1
    rw [Function.iterate_succ_apply, this, Nat.zero_add, Nat.mod_self]
  · intro m' hlen hsel'
    have := previous_selected_of_zero m' hsel' (by omega)
    rw [this, hlen]

/-- C6 witness: with a concrete 2-entry listing, three `next()` calls
from an unset cursor return to index 0 and `previous()` from 0 gives 1. -/
theorem C6_cursor_wraparound_witness :
    (FileManager.next^[3]
      { root := [], current := [],
        entities := [ManagerEntity.Action Action.Back, ManagerEntity.Action Action.Root],
        selected := none, created_entities := [] }).selected = some 0
    ∧ (FileManager.previous
        { root := [], current := [],
          entities := [ManagerEntity.Action Action.Back, ManagerEntity.Action Action.Root],
          selected := some 0, created_entities := [] }).selected = some 1 :=
  ⟨(C6_cursor_wraparound
      { root := [], current := [],
        entities := [ManagerEntity.Action Action.Back, ManagerEntity.Action Action.Root],
        selected := none, created_entities := [] } 2 rfl (by decide) rfl).2.1,
   (C6_cursor_wraparound
      { root := [], current := [],
        entities := [ManagerEntity.Action Action.Back, ManagerEntity.Action Action.Root],
        selected := none, created_entities := [] } 2 rfl (by decide) rfl).2.2
      { root := [], current := [],
        entities := [ManagerEntity.Action Action.Back, ManagerEntity.Action Action.Root],
        selected := some 0, created_entities := [] } rfl rfl⟩

/-! ## Claim C10: delete with no selection -/

/-- C10. With no entity selected, `delete_selected` succeeds, leaves
the filesystem and the session-created set untouched, and re-lists the
current directory via `refresh`. -/
theorem C10_delete_no_selection (fs : FS) (m : FileManager)
    (hsel : m.selected = none) (hcur : fs.isDir m.current = true) :
    FileManager.delete_selected fs m =
      (Except.ok (), fs,
        { m with
          entities :=
            FileManager.create_entities fs (fs.children m.current) (m.current == m.root),
          selected := none,
          current := m.current }) := by
  simp [FileManager.delete_selected, hsel, FileManager.refresh, FileManager.goto_dir,
    FS.openDir, hcur]

/-- C10 witness: an empty root directory with nothing selected. -/
theorem C10_delete_no_selection_witness :
    FileManager.delete_selected
      { dirs := [[]], files := [], meta := fun _ => none }
      { root := [], current := [], entities := [], selected := none, created_entities := [] } =
      (Except.ok (),
       { dirs := [[]], files := [], meta := fun _ => none },
       { root := [], current := [],
         entities :=
           FileManager.create_entities
             { dirs := [[]], files := [], meta := fun _ => none }
             (FS.children { dirs := [[]], files := [], meta := fun _ => none } [])
             (([] : Path) == ([] : Path)),
         selected := none, created_entities := [] }) :=
  C10_delete_no_selection
    { dirs := [[]], files := [], meta := fun _ => none }
    { root := [], current := [], entities := [], selected := none, created_entities := [] }
    rfl rfl

/-! ## Claim C4: listing sort policy -/

theorem pathLe_total : ∀ p q : Path, pathLe p q = true ∨ pathLe q p = true := by
  intro p
  induction p with
  | nil => intro q; left; rfl
  | cons a as ih =>
    intro q
    cases q with
    | nil => right; rfl
    | cons b bs =>
      rcases Nat.lt_trichotomy a b with h | h | h
      · left; simp [pathLe, h]
      · subst h
        rcases ih bs with h2 | h2
        · left; simp [pathLe, h2]
        · right; simp [pathLe, h2]
      · right; simp [pathLe, h]

theorem pathLe_trans :
    ∀ p q r : Path, pathLe p q = true → pathLe q r = true → pathLe p r = true := by
  intro p
  induction p with
  | nil => intro q r _ _; rfl
  | cons a as ih =>
    intro q r hpq hqr
    cases q with
    | nil => simp [pathLe] at hpq
    | cons b bs =>
      cases r with
      | nil => simp [pathLe] at hqr
      | cons c cs =>
        simp only [pathLe] at hpq hqr ⊢
        by_cases hab : a < b
        · by_cases hbc : b < c
          · simp [lt_trans hab hbc]
          · by_cases hbc2 : b = c
            · subst hbc2; simp [hab]
            · simp [hbc, hbc2] at hqr
        · by_cases hab2 : a = b
          · subst hab2
            simp only [if_neg hab, if_pos rfl] at hpq
            by_cases hac : a < c
            · simp [hac]
            · by_cases hac2 : a = c
              · subst hac2
                simp only [if_neg hac, if_pos rfl] at hqr ⊢
                exact ih bs cs hpq hqr
              · simp [hac, hac2] at hqr
          · simp [hab, hab2] at hpq

theorem folderLe_total : ∀ e1 e2 : ManagerEntity, folderLe e1 e2 || folderLe e2 e1 := by
  intro e1 e2
  unfold folderLe optPathLe
  cases folderKey e1 with
  | none => simp
  | some p =>
    cases folderKey e2 with
    | none => simp
    | some q =>
      rcases pathLe_total p q with h | h <;> simp [h]

theorem folderLe_trans : ∀ e1 e2 e3 : ManagerEntity,
    folderLe e1 e2 → folderLe e2 e3 → folderLe e1 e3 := by
  intro e1 e2 e3
  unfold folderLe optPathLe
  cases folderKey e1 with
  | none => simp
  | some p =>
    cases folderKey e2 with
    | none => intro h; simp at h
    | some q =>
      cases folderKey e3 with
      | none => intro _ h; simp at h
      | some r => exact fun h1 h2 => pathLe_trans p q r h1 h2

theorem optTimeLe_total : ∀ a b : Option Nat, optTimeLe a b || optTimeLe b a := by
  intro a b
  cases a <;> cases b <;> first | (simp [optTimeLe]; omega) | simp [optTimeLe]

theorem optTimeLe_trans : ∀ a b c : Option Nat,
    optTimeLe a b → optTimeLe b c → optTimeLe a c := by
  intro a b c
  cases a <;> cases b <;> cases c <;> first | (simp [optTimeLe]; omega) | simp [optTimeLe]

theorem fileLe_total (fs : FS) : ∀ e1 e2 : ManagerEntity, fileLe fs e1 e2 || fileLe fs e2 e1 := by
  intro e1 e2
  unfold fileLe
  exact optTimeLe_total _ _

theorem fileLe_trans (fs : FS) : ∀ e1 e2 e3 : ManagerEntity,
    fileLe fs e1 e2 → fileLe fs e2 e3 → fileLe fs e1 e3 := by
  intro e1 e2 e3 h1 h2
  exact optTimeLe_trans _ _ _ h2 h1

/-- C4. Listing sort policy: `create_entities` produces the folder
entities sorted ascending by full path, then the file entities sorted
descending by the last-modified key (metadata-unavailable entries carry
the least key, hence sort as the oldest, i.e. last), and finally, when
not at the root, the `Back` then `Root` entries. -/
theorem C4_listing_sort_policy (fs : FS) (files : List Path) (isRoot : Bool) :
    ∃ F G,
      FileManager.create_entities fs files isRoot
        = F ++ G ++
          (if isRoot then []
           else [ManagerEntity.Action Action.Back, ManagerEntity.Action Action.Root])
      ∧ F.Perm (files.filterMap fun p =>
          if fs.isDir p then some (ManagerEntity.Folder p) else none)
      ∧ F.Pairwise (fun e1 e2 => folderLe e1 e2 = true)
      ∧ G.Perm (files.filterMap fun p =>
          if fs.isFile p then some (ManagerEntity.TextFile p) else none)
      ∧ G.Pairwise (fun e1 e2 => optTimeLe (fileKey fs e2) (fileKey fs e1) = true) := by
  refine
    ⟨(files.filterMap fun p =>
        if fs.isDir p then some (ManagerEntity.Folder p) else none).mergeSort folderLe,
     (files.filterMap fun p =>
        if fs.isFile p then some (ManagerEntity.TextFile p) else none).mergeSort (fileLe fs),
     ?_, List.mergeSort_perm _ _, ?_, List.mergeSort_perm _ _, ?_⟩
  · unfold FileManager.create_entities
    cases isRoot <;> simp
  · exact List.sorted_mergeSort
      (fun a b c h1 h2 => folderLe_trans a b c h1 h2)
      (fun a b => folderLe_total a b) _
  · exact List.sorted_mergeSort
      (fun a b c h1 h2 => fileLe_trans fs a b c h1 h2)
      (fun a b => fileLe_total fs a b) _

/-! ## Claim C5: action-entry invariant -/

theorem mem_folder_sorted (fs : FS) (files : List Path) (e : ManagerEntity)
    (h : e ∈ (files.filterMap fun p =>
      if fs.isDir p then some (ManagerEntity.Folder p) else none).mergeSort folderLe) :
    ∃ p, e = ManagerEntity.Folder p := by
  rw [List.mem_mergeSort] at h
  obtain ⟨x, hx, hfx⟩ := List.mem_filterMap.mp h
  by_cases hd : fs.isDir x
  · rw [if_pos hd] at hfx
    exact ⟨x, (Option.some_injective _ hfx).symm⟩
  · rw [if_neg hd] at hfx
    cases hfx

theorem mem_file_sorted (fs : FS) (files : List Path) (e : ManagerEntity)
    (h : e ∈ (files.filterMap fun p =>
      if fs.isFile p then some (ManagerEntity.TextFile p) else none).mergeSort (fileLe fs)) :
    ∃ p, e = ManagerEntity.TextFile p := by
  rw [List.mem_mergeSort] at h
  obtain ⟨x, hx, hfx⟩ := List.mem_filterMap.mp h
  by_cases hd : fs.isFile x
  · rw [if_pos hd] at hfx
    exact ⟨x, (Option.some_injective _ hfx).symm⟩
  · rw [if_neg hd] at hfx
    cases hfx

theorem createEntities_core_no_action (fs : FS) (files : List Path) (a : Action) :
    ManagerEntity.Action a ∉
      ((files.filterMap fun p =>
          if fs.isDir p then some (ManagerEntity.Folder p) else none).mergeSort folderLe
        ++ (files.filterMap fun p =>
          if fs.isFile p then some (ManagerEntity.TextFile p) else none).mergeSort (fileLe fs)) := by
  intro h
  rcases List.mem_append.mp h with h1 | h1
  · obtain ⟨p, hp⟩ := mem_folder_sorted fs files _ h1
    cases hp
  · obtain ⟨p, hp⟩ := mem_file_sorted fs files _ h1
    cases hp

theorem createEntities_true_no_action (fs : FS) (files : List Path) (a : Action) :
    ManagerEntity.Action a ∉ FileManager.create_entities fs files true := by
  intro h
  simp only [FileManager.create_entities] at h
  exact createEntities_core_no_action fs files a h

theorem createEntities_false_split (fs : FS) (files : List Path) :
    ∃ front,
      FileManager.create_entities fs files false
        = front ++ [ManagerEntity.Action Action.Back, ManagerEntity.Action Action.Root]
      ∧ ∀ a, ManagerEntity.Action a ∉ front := by
  refine
    ⟨(files.filterMap fun p =>
        if fs.isDir p then some (ManagerEntity.Folder p) else none).mergeSort folderLe
      ++ (files.filterMap fun p =>
        if fs.isFile p then some (ManagerEntity.TextFile p) else none).mergeSort (fileLe fs),
     ?_, fun a => createEntities_core_no_action fs files a⟩
  simp [FileManager.create_entities]

theorem listingInv_congr (m m' : FileManager) (he : m'.entities = m.entities)
    (hc : m'.current = m.current) (hr : m'.root = m.root) (h : listingInv m) :
    listingInv m' := by
  unfold listingInv at h ⊢
  rw [he, hc, hr]
  exact h

theorem listingInv_build (fs : FS) (files : List Path) (m : FileManager)
    (h : m.entities = FileManager.create_entities fs files (m.current == m.root)) :
    listingInv m := by
  unfold listingInv
  by_cases hroot : m.current = m.root
  · rw [if_pos hroot]
    rw [h, beq_iff_eq.mpr hroot]
    exact fun a => createEntities_true_no_action fs files a
  · rw [if_neg hroot]
    rw [h, beq_eq_false_iff_ne.mpr hroot]
    exact createEntities_false_split fs files

theorem listingInv_goto (fs : FS) (m : FileManager) (dir : Path) (m1 : FileManager)
    (h : FileManager.goto_dir fs m dir = Except.ok m1) : listingInv m1 := by
  unfold FileManager.goto_dir at h
  cases hE : fs.openDir dir with
  | error e => rw [hE] at h; cases h
  | ok files =>
    rw [hE] at h
    simp only [Except.ok.injEq] at h
    subst h
    exact listingInv_build fs files _ rfl

theorem listingInv_new (fs : FS) (root : Path) (m : FileManager)
    (h : FileManager.new fs root = Except.ok m) : listingInv m := by
  unfold FileManager.new at h
  cases hE : fs.openDir root with
  | error e => rw [hE] at h; cases h
  | ok files =>
    rw [hE] at h
    simp only [Except.ok.injEq] at h
    subst h
    exact listingInv_build fs files _ (by simp)

theorem select_snd_fields (m : FileManager) (id : Nat) :
    ((m.select id).2).entities = m.entities
    ∧ ((m.select id).2).current = m.current
    ∧ ((m.select id).2).root = m.root := by
  unfold FileManager.select
  split <;> exact ⟨rfl, rfl, rfl⟩

theorem listingInv_refresh (fs : FS) (m : FileManager) (m1 : FileManager)
    (h : FileManager.refresh fs m = Except.ok m1) : listingInv m1 := by
  unfold FileManager.refresh at h
  cases hE : FileManager.goto_dir fs m m.current with
  | error e => rw [hE] at h; cases h
  | ok m2 =>
    rw [hE] at h
    simp only [Except.ok.injEq] at h
    subst h
    have hm2 := listingInv_goto fs m m.current m2 hE
    cases m.selected with
    | none => exact hm2
    | some id =>
      obtain ⟨he, hc, hr⟩ := select_snd_fields m2 id
      exact listingInv_congr m2 _ he hc hr hm2

theorem listingInv_action (fs : FS) (m : FileManager) (r : Except IoErr Respond)
    (m1 : FileManager) (h : FileManager.action fs m = (r, m1)) (hm : listingInv m) :
    listingInv m1 := by
  unfold FileManager.action at h
  split at h
  · cases h; exact hm
  · split at h
    · split at h
      · cases h; exact hm
      · split at h
        · cases h; exact hm
        · cases h; exact hm
    · split at h
      · rename_i m2 hg
        cases h
        exact listingInv_goto _ _ _ _ hg
      · cases h; exact hm
    · split at h
      · split at h
        · split at h
          · rename_i m2 hg
            cases h
            exact listingInv_goto _ _ _ _ hg
          · cases h; exact hm
        · cases h; exact hm
      · split at h
        · rename_i m2 hg
          cases h
          exact listingInv_goto _ _ _ _ hg
        · cases h; exact hm

theorem listingInv_create_file (fs : FS) (now nowT : Nat) (m : FileManager)
    (data : List Nat) (nm : Option Nat) (r : Except IoErr Unit) (fs1 : FS) (m1 : FileManager)
    (h : FileManager.create_file fs now nowT m data nm = (r, fs1, m1)) (hm : listingInv m) :
    listingInv m1 := by
  unfold FileManager.create_file at h
  dsimp only at h
  split at h
  · cases h; exact hm
  · split at h
    · rename_i fs2 hw m2 hr
      cases h
      exact listingInv_congr m _ rfl rfl rfl hm
    · rename_i fs2 hw m2 hr
      cases h
      exact listingInv_refresh _ _ _ hr

theorem listingInv_delete (fs : FS) (m : FileManager) (r : Except IoErr Unit)
    (fs1 : FS) (m1 : FileManager)
    (h : FileManager.delete_selected fs m = (r, fs1, m1)) (hm : listingInv m) :
    listingInv m1 := by
  unfold FileManager.delete_selected at h
  dsimp only at h
  split at h
  · split at h
    · cases h; exact hm
    · rename_i m2 hr
      cases h
      exact listingInv_refresh _ _ _ hr
  · split at h
    · split at h
      · cases h; exact hm
      · split at h
        · cases h; exact hm
        · split at h
          · rename_i m2 hr
            cases h
            exact listingInv_congr m _ rfl rfl rfl hm
          · rename_i m2 hr
            cases h
            exact listingInv_refresh _ _ _ hr
    · cases h; exact hm
    · cases h; exact hm

/-- C5. Action-entry invariant: the listing invariant (Action entries
present exactly when the current directory is not the root, and then as
the final two entries, Back then Root) is established by construction
and by every listing rebuild (`goto_dir`, i.e. navigation into a
folder, Back, Root; and `refresh`), and preserved by `action`,
`create_file` and `delete_selected` whatever their outcome. -/
theorem C5_action_entry_invariant :
    (∀ fs root m, FileManager.new fs root = Except.ok m → listingInv m)
    ∧ (∀ fs m dir m1, FileManager.goto_dir fs m dir = Except.ok m1 → listingInv m1)
    ∧ (∀ fs m m1, FileManager.refresh fs m = Except.ok m1 → listingInv m1)
    ∧ (∀ fs m r m1, FileManager.action fs m = (r, m1) → listingInv m → listingInv m1)
    ∧ (∀ fs now nowT m data nm r fs1 m1,
        FileManager.create_file fs now nowT m data nm = (r, fs1, m1) →
        listingInv m → listingInv m1)
    ∧ (∀ fs m r fs1 m1,
        FileManager.delete_selected fs m = (r, fs1, m1) → listingInv m → listingInv m1) :=
  ⟨listingInv_new, listingInv_goto, listingInv_refresh, listingInv_action,
   listingInv_create_file, listingInv_delete⟩

/-- C5 witness: constructing the manager on a concrete one-directory
filesystem satisfies the invariant. -/
theorem C5_action_entry_invariant_witness :
    listingInv
      { current := [], root := [],
        entities :=
          FileManager.create_entities
            { dirs := [[]], files := [], meta := fun _ => none }
            (FS.children { dirs := [[]], files := [], meta := fun _ => none } []) true,
        selected := none, created_entities := [] } :=
  C5_action_entry_invariant.1
    { dirs := [[]], files := [], meta := fun _ => none } []
    { current := [], root := [],
      entities :=
        FileManager.create_entities
          { dirs := [[]], files := [], meta := fun _ => none }
          (FS.children { dirs := [[]], files := [], meta := fun _ => none } []) true,
      selected := none, created_entities := [] }
    rfl

/-! ## Claim C8: controller error handling -/

/-- C8. Controller error handling: for every key event, when the
dispatched `update` returns an error the session keeps its mode and the
error becomes the displayed status, and when `update` succeeds the
status is cleared and the returned mode installed. -/
theorem C8_controller_error_handling
    (inputFn : KeyEvent → List (List Nat) → List (List Nat))
    (now nowT : Nat) (key : KeyEvent) (s : SessionState) :
    (∀ err,
      (update inputFn now nowT key s.mode s.fs s.manager s.viewer s.editor).1
          = Except.error err →
        (sessionStep inputFn now nowT key s).mode = s.mode
        ∧ (sessionStep inputFn now nowT key s).status = some err)
    ∧ (∀ mo,
      (update inputFn now nowT key s.mode s.fs s.manager s.viewer s.editor).1
          = Except.ok mo →
        (sessionStep inputFn now nowT key s).mode = mo
        ∧ (sessionStep inputFn now nowT key s).status = none) := by
  unfold sessionStep
  rcases hu : update inputFn now nowT key s.mode s.fs s.manager s.viewer s.editor with
    ⟨res, fs1, m1, v1, e1⟩
  cases res with
  | ok mo1 =>
    constructor
    · intro err herr
      simp at herr
    · intro mo hmo
      simp only [Except.ok.injEq] at hmo
      subst hmo
      exact ⟨rfl, rfl⟩
  | error e =>
    constructor
    · intro err herr
      simp only [Except.error.injEq] at herr
      subst herr
      exact ⟨rfl, rfl⟩
    · intro mo hmo
      simp at hmo

/-- C8 witness: pressing `d` in Manager mode with an Action entry
selected makes `delete_selected` fail; the session stays in Manager
mode and the status shows the error. -/
theorem C8_controller_error_handling_witness :
    (sessionStep (fun _ l => l) 0 0 ⟨KeyCode.char 'd', false⟩
      { mode := Mode.Manager, status := none,
        fs := { dirs := [[]], files := [], meta := fun _ => none },
        manager :=
          { root := [], current := [],
            entities := [ManagerEntity.Action Action.Back],
            selected := some 0, created_entities := [] },
        viewer :=
          { name := none, entity := ViewerEntity.Text [], scroll := 0,
            key := [97, 98, 99, 100, 101] },
        editor := { textarea := none, key := [97, 98, 99, 100, 101] } }).mode
      = Mode.Manager
    ∧ (sessionStep (fun _ l => l) 0 0 ⟨KeyCode.char 'd', false⟩
      { mode := Mode.Manager, status := none,
        fs := { dirs := [[]], files := [], meta := fun _ => none },
        manager :=
          { root := [], current := [],
            entities := [ManagerEntity.Action Action.Back],
            selected := some 0, created_entities := [] },
        viewer :=
          { name := none, entity := ViewerEntity.Text [], scroll := 0,
            key := [97, 98, 99, 100, 101] },
        editor := { textarea := none, key := [97, 98, 99, 100, 101] } }).status
      = some ⟨IoErrKind.invalidInput, "Cannot delete the action entity"⟩ :=
  (C8_controller_error_handling (fun _ l => l) 0 0 ⟨KeyCode.char 'd', false⟩
    { mode := Mode.Manager, status := none,
      fs := { dirs := [[]], files := [], meta := fun _ => none },
      manager :=
        { root := [], current := [],
          entities := [ManagerEntity.Action Action.Back],
          selected := some 0, created_entities := [] },
      viewer :=
        { name := none, entity := ViewerEntity.Text [], scroll := 0,
          key := [97, 98, 99, 100, 101] },
      editor := { textarea := none, key := [97, 98, 99, 100, 101] } }).1
    ⟨IoErrKind.invalidInput, "Cannot delete the action entity"⟩ rfl

/-! ## Claim C9: save is not atomic with the editor buffer -/

theorem finish_snd_textarea (e : Editor) : (Editor.finish e).2.textarea = none := by
  unfold Editor.finish
  cases he : e.textarea with
  | none => exact he
  | some ta => rfl

theorem finish_encrypt_snd_textarea (e : Editor) :
    (Editor.finish_encrypt e).2.textarea = none := by
  unfold Editor.finish_encrypt
  cases he : e.textarea with
  | none => exact he
  | some ta => rfl

theorem finish_fst_of_none (e : Editor) (h : e.textarea = none) :
    (Editor.finish e).1 = [] := by
  unfold Editor.finish
  rw [h]

theorem update_save_plain (inputFn : KeyEvent → List (List Nat) → List (List Nat))
    (now nowT : Nat) (kc : Char) (hkc : kc = 's' ∨ kc = 'S')
    (fs : FS) (mgr : FileManager) (vw : Viewer) (ed : Editor) :
    update inputFn now nowT ⟨KeyCode.char kc, true⟩ Mode.Editor fs mgr vw ed
      = (match FileManager.create_file fs now nowT mgr (Editor.finish ed).1 none with
         | (Except.ok _, fs1, m1) => (Except.ok Mode.Manager, fs1, m1, vw, (Editor.finish ed).2)
         | (Except.error e, fs1, m1) =>
           (Except.error e, fs1, m1, vw, (Editor.finish ed).2)) := by
  rcases hkc with h | h <;> subst h <;> rfl

theorem update_save_encrypt (inputFn : KeyEvent → List (List Nat) → List (List Nat))
    (now nowT : Nat) (kc : Char) (hkc : kc = 'e' ∨ kc = 'E')
    (fs : FS) (mgr : FileManager) (vw : Viewer) (ed : Editor) :
    update inputFn now nowT ⟨KeyCode.char kc, true⟩ Mode.Editor fs mgr vw ed
      = (match FileManager.create_file fs now nowT mgr (Editor.finish_encrypt ed).1 none with
         | (Except.ok _, fs1, m1) => (Except.ok Mode.Manager, fs1, m1, vw, (Editor.finish_encrypt ed).2)
         | (Except.error e, fs1, m1) =>
           (Except.error e, fs1, m1, vw, (Editor.finish_encrypt ed).2)) := by
  rcases hkc with h | h <;> subst h <;> rfl

/-- C9. In Editor mode, a save combo (Ctrl+S) or encrypt-save combo
(Ctrl+E) consumes the editor buffer before `create_file` runs: after
the step the buffer is `none` whatever the outcome; when the step
failed (non-empty status) the session is still in Editor mode with the
typed content lost, and a repeated finish yields empty output. -/
theorem C9_save_consumes_buffer
    (inputFn : KeyEvent → List (List Nat) → List (List Nat))
    (now nowT : Nat) (key : KeyEvent) (s : SessionState)
    (hmode : s.mode = Mode.Editor)
    (hkey : key.code = KeyCode.char 's' ∨ key.code = KeyCode.char 'S'
      ∨ key.code = KeyCode.char 'e' ∨ key.code = KeyCode.char 'E')
    (hctrl : key.ctrl = true) :
    (sessionStep inputFn now nowT key s).editor.textarea = none
    ∧ ((sessionStep inputFn now nowT key s).status ≠ none →
        (sessionStep inputFn now nowT key s).mode = Mode.Editor)
    ∧ (Editor.finish (sessionStep inputFn now nowT key s).editor).1 = [] := by
  obtain ⟨kc, kct⟩ := key
  simp only at hkey hctrl
  subst hctrl
  have main :
      (sessionStep inputFn now nowT ⟨kc, true⟩ s).editor.textarea = none
        ∧ ((sessionStep inputFn now nowT ⟨kc, true⟩ s).status ≠ none →
            (sessionStep inputFn now nowT ⟨kc, true⟩ s).mode = Mode.Editor) := by
    unfold sessionStep
    rw [hmode]
    rcases hkey with h | h | h | h <;> subst h
    · rw [update_save_plain inputFn now nowT 's' (Or.inl rfl) s.fs s.manager s.viewer s.editor]
      rcases hc : FileManager.create_file s.fs now nowT s.manager
          (Editor.finish s.editor).1 none with ⟨res, fs1, m1⟩
      cases res with
      | ok u => exact ⟨finish_snd_textarea s.editor, fun hst => absurd rfl hst⟩
      | error e => exact ⟨finish_snd_textarea s.editor, fun _ => rfl⟩
    · rw [update_save_plain inputFn now nowT 'S' (Or.inr rfl) s.fs s.manager s.viewer s.editor]
      rcases hc : FileManager.create_file s.fs now nowT s.manager
          (Editor.finish s.editor).1 none with ⟨res, fs1, m1⟩
      cases res with
      | ok u => exact ⟨finish_snd_textarea s.editor, fun hst => absurd rfl hst⟩
      | error e => exact ⟨finish_snd_textarea s.editor, fun _ => rfl⟩
    · rw [update_save_encrypt inputFn now nowT 'e' (Or.inl rfl) s.fs s.manager s.viewer s.editor]
      rcases hc : FileManager.create_file s.fs now nowT s.manager
          (Editor.finish_encrypt s.editor).1 none with ⟨res, fs1, m1⟩
      cases res with
      | ok u => exact ⟨finish_encrypt_snd_textarea s.editor, fun hst => absurd rfl hst⟩
      | error e => exact ⟨finish_encrypt_snd_textarea s.editor, fun _ => rfl⟩
    · rw [update_save_encrypt inputFn now nowT 'E' (Or.inr rfl) s.fs s.manager s.viewer s.editor]
      rcases hc : FileManager.create_file s.fs now nowT s.manager
          (Editor.finish_encrypt s.editor).1 none with ⟨res, fs1, m1⟩
      cases res with
      | ok u => exact ⟨finish_encrypt_snd_textarea s.editor, fun hst => absurd rfl hst⟩
      | error e => exact ⟨finish_encrypt_snd_textarea s.editor, fun _ => rfl⟩
  exact ⟨main.1, main.2, finish_fst_of_none _ main.1⟩

/-- C9 witness: Ctrl+S with typed content while the current directory
does not exist on disk: the write fails (status is the error), the
session stays in Editor mode, yet the buffer is gone and a repeated
finish yields empty output. -/
theorem C9_save_consumes_buffer_witness :
    (sessionStep (fun _ l => l) 0 0 ⟨KeyCode.char 's', true⟩
      { mode := Mode.Editor, status := none,
        fs := { dirs := [], files := [], meta := fun _ => none },
        manager := { root := [], current := [], entities := [], selected := none,
                     created_entities := [] },
        viewer := { name := none, entity := ViewerEntity.Text [], scroll := 0,
                    key := [97, 98, 99, 100, 101] },
        editor := { textarea := some [[104, 105]],
                    key := [97, 98, 99, 100, 101] } }).status
      = some ⟨IoErrKind.notFound, "No such directory"⟩
    ∧ ((sessionStep (fun _ l => l) 0 0 ⟨KeyCode.char 's', true⟩
      { mode := Mode.Editor, status := none,
        fs := { dirs := [], files := [], meta := fun _ => none },
        manager := { root := [], current := [], entities := [], selected := none,
                     created_entities := [] },
        viewer := { name := none, entity := ViewerEntity.Text [], scroll := 0,
                    key := [97, 98, 99, 100, 101] },
        editor := { textarea := some [[104, 105]],
                    key := [97, 98, 99, 100, 101] } }).editor.textarea = none
    ∧ ((sessionStep (fun _ l => l) 0 0 ⟨KeyCode.char 's', true⟩
      { mode := Mode.Editor, status := none,
        fs := { dirs := [], files := [], meta := fun _ => none },
        manager := { root := [], current := [], entities := [], selected := none,
                     created_entities := [] },
        viewer := { name := none, entity := ViewerEntity.Text [], scroll := 0,
                    key := [97, 98, 99, 100, 101] },
        editor := { textarea := some [[104, 105]],
                    key := [97, 98, 99, 100, 101] } }).status ≠ none →
        (sessionStep (fun _ l => l) 0 0 ⟨KeyCode.char 's', true⟩
      { mode := Mode.Editor, status := none,
        fs := { dirs := [], files := [], meta := fun _ => none },
        manager := { root := [], current := [], entities := [], selected := none,
                     created_entities := [] },
        viewer := { name := none, entity := ViewerEntity.Text [], scroll := 0,
                    key := [97, 98, 99, 100, 101] },
        editor := { textarea := some [[104, 105]],
                    key := [97, 98, 99, 100, 101] } }).mode = Mode.Editor)
    ∧ (Editor.finish (sessionStep (fun _ l => l) 0 0 ⟨KeyCode.char 's', true⟩
      { mode := Mode.Editor, status := none,
        fs := { dirs := [], files := [], meta := fun _ => none },
        manager := { root := [], current := [], entities := [], selected := none,
                     created_entities := [] },
        viewer := { name := none, entity := ViewerEntity.Text [], scroll := 0,
                    key := [97, 98, 99, 100, 101] },
        editor := { textarea := some [[104, 105]],
                    key := [97, 98, 99, 100, 101] } }).editor).1 = []) :=
  ⟨rfl,
   C9_save_consumes_buffer (fun _ l => l) 0 0 ⟨KeyCode.char 's', true⟩
    { mode := Mode.Editor, status := none,
      fs := { dirs := [], files := [], meta := fun _ => none },
      manager := { root := [], current := [], entities := [], selected := none,
                   created_entities := [] },
      viewer := { name := none, entity := ViewerEntity.Text [], scroll := 0,
                  key := [97, 98, 99, 100, 101] },
      editor := { textarea := some [[104, 105]],
                  key := [97, 98, 99, 100, 101] } }
    rfl (Or.inl rfl) rfl⟩

/-! ## Claim C2: deletion gating -/

theorem select_snd_created (m : FileManager) (id : Nat) :
    ((m.select id).2).created_entities = m.created_entities := by
  unfold FileManager.select
  split
  · rfl
  · rfl

theorem findIdx?_none_of_not_mem (a : ManagerEntity) (l : List ManagerEntity)
    (h : a ∉ l) : l.findIdx? (fun elem => elem == a) = none := by
  rw [List.findIdx?_eq_none_iff]
  intro x hx
  by_cases hxa : x = a
  · subst hxa
    exact absurd hx h
  · simp [hxa]

theorem findIdx?_isSome_of_mem (a : ManagerEntity) (l : List ManagerEntity)
    (h : a ∈ l) : ∃ i, l.findIdx? (fun elem => elem == a) = some i := by
  cases hfi : l.findIdx? (fun elem => elem == a) with
  | some i => exact ⟨i, rfl⟩
  | none =>
    rw [List.findIdx?_eq_none_iff] at hfi
    have := hfi a h
    simp at this

theorem count_eraseIdx_of_findIdx? (a : ManagerEntity) :
    ∀ (l : List ManagerEntity) (i : Nat),
      l.findIdx? (fun elem => elem == a) = some i →
      (l.eraseIdx i).count a + 1 = l.count a := by
  intro l
  induction l with
  | nil => intro i h; simp at h
  | cons x xs ih =>
    intro i h
    rw [List.findIdx?_cons] at h
    by_cases hx : (x == a) = true
    · rw [if_pos hx] at h
      have hi : i = 0 := (Option.some.inj h).symm
      subst hi
      rw [List.eraseIdx_cons_zero, List.count_cons, if_pos hx]
    · rw [if_neg hx, List.findIdx?_succ] at h
      cases hfx : xs.findIdx? (fun elem => elem == a) with
      | none => rw [hfx] at h; simp at h
      | some j =>
        rw [hfx] at h
        simp only [Option.map_some'] at h
        have hi : i = j + 1 := (Option.some.inj h).symm
        subst hi
        rw [List.eraseIdx_cons_succ, List.count_cons, List.count_cons, if_neg hx]
        have := ih j hfx
        omega

theorem any_filter_beq_false (l : List (Path × List Nat)) (p : Path) :
    ((l.filter fun f => !(f.1 == p)).any fun f => f.1 == p) = false := by
  rw [Bool.eq_false_iff]
  intro hco
  rw [List.any_eq_true] at hco
  obtain ⟨f, hf, hfp⟩ := hco
  rw [List.mem_filter] at hf
  rw [hfp] at hf
  simp at hf

theorem removeFile_ok (fs : FS) (p : Path) (h : fs.isFile p = true) :
    fs.removeFile p = Except.ok
      { dirs := fs.dirs,
        files := fs.files.filter fun f => !(f.1 == p),
        meta := fun q => if q == p then none else fs.meta q } := by
  unfold FS.removeFile
  rw [h]
  rfl

theorem refresh_of_isDir (fs : FS) (m : FileManager) (hcur : fs.isDir m.current = true) :
    FileManager.refresh fs m = Except.ok
      (match m.selected with
       | some id =>
         (FileManager.select
           { root := m.root, current := m.current,
             entities := FileManager.create_entities fs (fs.children m.current)
               (m.current == m.root),
             selected := none, created_entities := m.created_entities } id).2
       | none =>
         { root := m.root, current := m.current,
           entities := FileManager.create_entities fs (fs.children m.current)
             (m.current == m.root),
           selected := none, created_entities := m.created_entities }) := by
  unfold FileManager.refresh FileManager.goto_dir FS.openDir
  rw [hcur]
  rfl

theorem delete_selected_some (fs : FS) (m : FileManager) (id : Nat)
    (hsel : m.selected = some id) :
    FileManager.delete_selected fs m =
      (match m.entities.getD id (ManagerEntity.Action Action.Back) with
       | ManagerEntity.TextFile path =>
         (match m.created_entities.findIdx? (fun elem => elem == ManagerEntity.TextFile path) with
          | none =>
            (Except.error
              ⟨IoErrKind.invalidInput,
               "Cannot delete the entity not created in the current session"⟩, fs, m)
          | some item =>
            (match fs.removeFile path with
             | Except.error e => (Except.error e, fs, m)
             | Except.ok fs1 =>
               (match FileManager.refresh fs1
                   { root := m.root, current := m.current, entities := m.entities,
                     selected := some id,
                     created_entities := m.created_entities.eraseIdx item } with
                | Except.error e =>
                  (Except.error e, fs1,
                   { root := m.root, current := m.current, entities := m.entities,
                     selected := some id,
                     created_entities := m.created_entities.eraseIdx item })
                | Except.ok m2 => (Except.ok (), fs1, m2))))
       | ManagerEntity.Folder _ =>
         (Except.error ⟨IoErrKind.invalidInput, "Cannot delete the folder entity"⟩, fs, m)
       | ManagerEntity.Action _ =>
         (Except.error ⟨IoErrKind.invalidInput, "Cannot delete the action entity"⟩, fs, m)) := by
  unfold FileManager.delete_selected
  rw [hsel]

/-- C2. Deletion gating (for a state with an in-effect selection whose
session-created files exist on disk and whose current directory is
readable): `delete_selected` succeeds exactly when the selected entity
is a `TextFile` recorded in the session-created set; a file not in the
set, a folder, or an Action entry each fail with the distinct
`NotDeletable`-style `InvalidInput` error; on success the file is gone
from the filesystem, its count in the created set drops by one (so it
is deletable exactly once), and the listing is rebuilt from the
re-listed current directory. -/
theorem C2_deletion_gating (fs : FS) (m : FileManager) (id : Nat)
    (hsel : m.selected = some id)
    (hcur : fs.isDir m.current = true)
    (hdisk : ∀ p,
      m.entities.getD id (ManagerEntity.Action Action.Back) = ManagerEntity.TextFile p →
      ManagerEntity.TextFile p ∈ m.created_entities → fs.isFile p = true) :
    ((FileManager.delete_selected fs m).1 = Except.ok () ↔
      ∃ p, m.entities.getD id (ManagerEntity.Action Action.Back) = ManagerEntity.TextFile p
        ∧ ManagerEntity.TextFile p ∈ m.created_entities)
    ∧ (∀ p,
        m.entities.getD id (ManagerEntity.Action Action.Back) = ManagerEntity.TextFile p →
        ManagerEntity.TextFile p ∉ m.created_entities →
        FileManager.delete_selected fs m =
          (Except.error
            ⟨IoErrKind.invalidInput,
             "Cannot delete the entity not created in the current session"⟩, fs, m))
    ∧ (∀ p,
        m.entities.getD id (ManagerEntity.Action Action.Back) = ManagerEntity.Folder p →
        FileManager.delete_selected fs m =
          (Except.error ⟨IoErrKind.invalidInput, "Cannot delete the folder entity"⟩, fs, m))
    ∧ (∀ a,
        m.entities.getD id (ManagerEntity.Action Action.Back) = ManagerEntity.Action a →
        FileManager.delete_selected fs m =
          (Except.error ⟨IoErrKind.invalidInput, "Cannot delete the action entity"⟩, fs, m))
    ∧ (∀ p,
        m.entities.getD id (ManagerEntity.Action Action.Back) = ManagerEntity.TextFile p →
        ManagerEntity.TextFile p ∈ m.created_entities →
        ∃ fs1 m1, FileManager.delete_selected fs m = (Except.ok (), fs1, m1)
          ∧ fs1.isFile p = false
          ∧ fs1.dirs = fs.dirs
          ∧ m1.created_entities.count (ManagerEntity.TextFile p) + 1
              = m.created_entities.count (ManagerEntity.TextFile p)
          ∧ m1.entities = FileManager.create_entities fs1 (fs1.children m.current)
              (m.current == m.root)
          ∧ m1.current = m.current) := by
  have hdel := delete_selected_some fs m id hsel
  have hNC : ∀ p,
      m.entities.getD id (ManagerEntity.Action Action.Back) = ManagerEntity.TextFile p →
      ManagerEntity.TextFile p ∉ m.created_entities →
      FileManager.delete_selected fs m =
        (Except.error
          ⟨IoErrKind.invalidInput,
           "Cannot delete the entity not created in the current session"⟩, fs, m) := by
    intro p hent hmem
    rw [hdel, hent]
    dsimp only
    rw [findIdx?_none_of_not_mem _ _ hmem]
  have hF : ∀ p,
      m.entities.getD id (ManagerEntity.Action Action.Back) = ManagerEntity.Folder p →
      FileManager.delete_selected fs m =
        (Except.error ⟨IoErrKind.invalidInput, "Cannot delete the folder entity"⟩, fs, m) := by
    intro p hent
    rw [hdel, hent]
  have hA : ∀ a,
      m.entities.getD id (ManagerEntity.Action Action.Back) = ManagerEntity.Action a →
      FileManager.delete_selected fs m =
        (Except.error ⟨IoErrKind.invalidInput, "Cannot delete the action entity"⟩, fs, m) := by
    intro a hent
    rw [hdel, hent]
  have hS : ∀ p,
      m.entities.getD id (ManagerEntity.Action Action.Back) = ManagerEntity.TextFile p →
      ManagerEntity.TextFile p ∈ m.created_entities →
      ∃ fs1 m1, FileManager.delete_selected fs m = (Except.ok (), fs1, m1)
        ∧ fs1.isFile p = false
        ∧ fs1.dirs = fs.dirs
        ∧ m1.created_entities.count (ManagerEntity.TextFile p) + 1
            = m.created_entities.count (ManagerEntity.TextFile p)
        ∧ m1.entities = FileManager.create_entities fs1 (fs1.children m.current)
            (m.current == m.root)
        ∧ m1.current = m.current := by
    intro p hent hmem
    obtain ⟨item, hitem⟩ := findIdx?_isSome_of_mem (ManagerEntity.TextFile p) _ hmem
    have hfile : fs.isFile p = true := hdisk p hent hmem
    have hrm := removeFile_ok fs p hfile
    have hcur1 :
        (FS.mk fs.dirs (fs.files.filter fun f => !(f.1 == p))
          (fun q => if q == p then none else fs.meta q)).isDir m.current = true := hcur
    have hrf := refresh_of_isDir
      (FS.mk fs.dirs (fs.files.filter fun f => !(f.1 == p))
        (fun q => if q == p then none else fs.meta q))
      (FileManager.mk m.root m.current m.entities (some id)
        (m.created_entities.eraseIdx item)) hcur1
    refine
      ⟨FS.mk fs.dirs (fs.files.filter fun f => !(f.1 == p))
        (fun q => if q == p then none else fs.meta q),
       (FileManager.select
         (FileManager.mk m.root m.current
           (FileManager.create_entities
             (FS.mk fs.dirs (fs.files.filter fun f => !(f.1 == p))
               (fun q => if q == p then none else fs.meta q))
             ((FS.mk fs.dirs (fs.files.filter fun f => !(f.1 == p))
               (fun q => if q == p then none else fs.meta q)).children m.current)
             (m.current == m.root))
           none (m.created_entities.eraseIdx item)) id).2,
       ?_, any_filter_beq_false fs.files p, rfl, ?_, ?_, ?_⟩
    · rw [hdel, hent]
      dsimp only
      rw [hitem]
      dsimp only
      rw [hrm]
      dsimp only
      rw [hrf]
    · rw [select_snd_created]
      exact count_eraseIdx_of_findIdx? (ManagerEntity.TextFile p) _ item hitem
    · exact (select_snd_fields _ id).1
    · exact (select_snd_fields _ id).2.1
  refine ⟨⟨?_, ?_⟩, hNC, hF, hA, hS⟩
  · intro hok
    cases hE : m.entities.getD id (ManagerEntity.Action Action.Back) with
    | TextFile p =>
      by_cases hmem : ManagerEntity.TextFile p ∈ m.created_entities
      · exact ⟨p, rfl, hmem⟩
      · rw [hNC p hE hmem] at hok
        cases hok
    | Folder p =>
      rw [hF p hE] at hok
      cases hok
    | Action a =>
      rw [hA a hE] at hok
      cases hok
  · rintro ⟨p, hent, hmem⟩
    obtain ⟨fs1, m1, heq, _⟩ := hS p hent hmem
    rw [heq]

/-- C2 witness: deleting a selected session-created file on a concrete
one-file filesystem succeeds. -/
theorem C2_deletion_gating_witness :
    (FileManager.delete_selected
      { dirs := [[]], files := [([5], [104])], meta := fun _ => none }
      { root := [], current := [], entities := [ManagerEntity.TextFile [5]],
        selected := some 0, created_entities := [ManagerEntity.TextFile [5]] }).1
      = Except.ok () :=
  (C2_deletion_gating
    { dirs := [[]], files := [([5], [104])], meta := fun _ => none }
    { root := [], current := [], entities := [ManagerEntity.TextFile [5]],
      selected := some 0, created_entities := [ManagerEntity.TextFile [5]] }
    0 rfl rfl
    (by intro p hp hm; cases hp; rfl)).1.mpr
    ⟨[5], rfl, by decide⟩

end Mystore
